import Mathlib

/-!
Verification of the protocol generator in `Hint/protocol_generator.py`.

The development shallowly embeds the text-patching core of the generator:

* the data-section regular expression
  `    # BO ITERATION DATA - WILL BE REPLACED DYNAMICALLY\n    BO_DATA = \x7b[^\x7d]+\x7d`
  together with the `re.sub` scan that replaces every non-overlapping match;
* the serialisation of the batch dictionary by `json.dumps(bo_data, indent=8)`
  followed by the two brace-reformatting `str.replace` calls;
* the metadata-label `str.replace` relabelling step;
* the column extraction from the data table (a missing column raises `KeyError`);
* the iteration-number extraction `re.search(r"BO_R(\d+)", path)` with default 0.

Machine text is modelled as `List Char`.  Numbers that the Python code only
ever serialises (never computes with) are carried by their decimal rendering.
-/

set_option maxRecDepth 20000

namespace ProtocolGen

/-- List of characters of a string literal. -/
def cs (s : String) : List Char := s.data

/-- Opening brace character. -/
def openBrace : Char := '\x7b'

/-- Closing brace character. -/
def closeBrace : Char := '\x7d'

/-- Boolean test that the second list starts with the first
(the exact-prefix check used by all the scanners below). -/
def startsWith : List Char → List Char → Bool
  | [], _ => true
  | _ :: _, [] => false
  | p :: ps, c :: cks => p == c && startsWith ps cks

/-- Split a character list at the first closing brace: returns the characters
strictly before the first `\x7d` and the characters strictly after it, or
`none` when no closing brace occurs.  This is how the regex piece
`[^\x7d]+\x7d` delimits the matched span: at the FIRST closing brace, with no
brace balancing. -/
def splitAtClose : List Char → Option (List Char × List Char)
  | [] => none
  | c :: r =>
    if c = closeBrace then some ([], r)
    else
      match splitAtClose r with
      | some (a, b) => some (c :: a, b)
      | none => none

/-- The literal part of the pattern of `re.sub` in
`generate_protocol_from_csv` / `generate_protocol_from_dataframe`:
marker comment, newline, and the assignment up to and including the
opening brace. -/
def litChars : List Char :=
  cs ("    # BO ITERATION DATA - WILL BE REPLACED DYNAMICALLY\n    BO_DATA = \x7b")

/-- Attempt of the full pattern
`    # BO ITERATION DATA - WILL BE REPLACED DYNAMICALLY\n    BO_DATA = \x7b[^\x7d]+\x7d`
at the head of `s`.  On success returns the remainder of the text after the
match; the brace body must be nonempty (`[^\x7d]+`) and ends at the first
closing brace. -/
def tryMatch (s : List Char) : Option (List Char) :=
  if startsWith litChars s then
    match splitAtClose (s.drop litChars.length) with
    | some (inner, rest) => if inner.isEmpty then none else some rest
    | none => none
  else none

/-- Membership of the characters before the first closing brace. -/
theorem splitAtClose_eq {s a b : List Char} (h : splitAtClose s = some (a, b)) :
    s = a ++ closeBrace :: b ∧ ∀ c ∈ a, c ≠ closeBrace := by
  induction s generalizing a b with
  | nil => simp [splitAtClose] at h
  | cons c r ih =>
    by_cases hc : c = closeBrace
    · subst hc
      simp [splitAtClose] at h
      obtain ⟨ha, hb⟩ := h
      subst ha; subst hb
      simp
    · rw [splitAtClose, if_neg hc] at h
      cases hsr : splitAtClose r with
      | none => rw [hsr] at h; cases h
      | some ab =>
        obtain ⟨a1, b1⟩ := ab
        rw [hsr] at h
        simp at h
        obtain ⟨ha, hb⟩ := h
        obtain ⟨h1, h2⟩ := ih hsr
        subst hb
        constructor
        · rw [← ha, h1]; simp
        · intro d hd
          rw [← ha] at hd
          rcases List.mem_cons.mp hd with h | h
          · subst h; exact hc
          · exact h2 d h

/-- Computation of `splitAtClose` on a list whose first closing brace is
explicit. -/
theorem splitAtClose_append (xs r : List Char) (h : ∀ c ∈ xs, c ≠ closeBrace) :
    splitAtClose (xs ++ closeBrace :: r) = some (xs, r) := by
  induction xs with
  | nil => simp [splitAtClose]
  | cons c xs ih =>
    have hc : c ≠ closeBrace := h c (by simp)
    have ih2 := ih (fun d hd => h d (by simp [hd]))
    simp only [List.cons_append, splitAtClose, if_neg hc, List.append_eq]
    rw [ih2]

/-- A list starts with itself followed by anything. -/
theorem startsWith_append (p t : List Char) : startsWith p (p ++ t) = true := by
  induction p with
  | nil => rfl
  | cons c p ih => simp [startsWith, ih]

/-- A successful prefix check exhibits an append decomposition. -/
theorem startsWith_exists {p s : List Char} (h : startsWith p s = true) :
    ∃ t, s = p ++ t := by
  induction p generalizing s with
  | nil => exact ⟨s, rfl⟩
  | cons c p ih =>
    cases s with
    | nil => simp [startsWith] at h
    | cons d s =>
      simp [startsWith] at h
      obtain ⟨t, ht⟩ := ih h.2
      exact ⟨t, by simp [h.1, ht]⟩

/-- Successful matches of the data-section pattern decompose the text as the
literal prefix, a nonempty brace body free of closing braces, the FIRST
closing brace, and the remainder. -/
theorem tryMatch_some {s rest : List Char} (h : tryMatch s = some rest) :
    ∃ inner, inner ≠ [] ∧ (∀ c ∈ inner, c ≠ closeBrace) ∧
      s = litChars ++ (inner ++ closeBrace :: rest) := by
  unfold tryMatch at h
  cases hsw : startsWith litChars s with
  | false => rw [hsw] at h; cases h
  | true =>
    rw [hsw] at h
    simp only [if_true] at h
    cases hsp : splitAtClose (s.drop litChars.length) with
    | none => rw [hsp] at h; cases h
    | some ab =>
      obtain ⟨inner, b⟩ := ab
      rw [hsp] at h
      by_cases hin : inner.isEmpty
      · simp [hin] at h
      · simp [hin] at h
        obtain ⟨t, ht⟩ := startsWith_exists hsw
        have hdrop : s.drop litChars.length = t := by
          rw [ht]; exact List.drop_left _ _
        rw [hdrop] at hsp
        obtain ⟨h1, h2⟩ := splitAtClose_eq hsp
        refine ⟨inner, ?_, h2, ?_⟩
        · intro hnil
          rw [hnil] at hin
          simp at hin
        · rw [ht, h1, h]

/-- Computation of `tryMatch` on an explicitly decomposed block. -/
theorem tryMatch_block (inner suf : List Char) (h1 : inner ≠ [])
    (h2 : ∀ c ∈ inner, c ≠ closeBrace) :
    tryMatch (litChars ++ (inner ++ closeBrace :: suf)) = some suf := by
  have hsw := startsWith_append litChars (inner ++ closeBrace :: suf)
  have hdrop : (litChars ++ (inner ++ closeBrace :: suf)).drop litChars.length
      = inner ++ closeBrace :: suf := List.drop_left _ _
  simp [tryMatch, hsw, hdrop, splitAtClose_append inner suf h2, h1]

/-- A successful match consumes at least one character. -/
theorem tryMatch_length {s rest : List Char} (h : tryMatch s = some rest) :
    rest.length < s.length := by
  obtain ⟨inner, h1, _, h3⟩ := tryMatch_some h
  subst h3
  have hlit : 0 < litChars.length := by decide
  simp [List.length_append]
  omega

/-- Fuelled scan of `re.sub`: at each position try the pattern; on a match
emit the replacement (without rescanning it) and continue after the match,
else copy one character and continue.  The fuel only bounds the recursion
depth; with fuel at least the length of the text (as the wrapper below
supplies) it never runs out, since every step consumes at least one
character. -/
def subScanF (repl : List Char) : Nat → List Char → List Char
  | _, [] => []
  | 0, s => s
  | fuel + 1, c :: rest =>
    match tryMatch (c :: rest) with
    | some tail => repl ++ subScanF repl fuel tail
    | none => c :: subScanF repl fuel rest

/-- Values of `subScanF` agree on all sufficient fuels. -/
theorem subScanF_congr (repl : List Char) :
    ∀ (f g : Nat) (s : List Char), s.length ≤ f → s.length ≤ g →
      subScanF repl f s = subScanF repl g s := by
  intro f
  induction f with
  | zero =>
    intro g s hf _
    have hs : s = [] := List.eq_nil_of_length_eq_zero (Nat.le_zero.mp hf)
    subst hs
    cases g <;> rfl
  | succ f ih =>
    intro g s hf hg
    cases s with
    | nil => cases g <;> rfl
    | cons c rest =>
      cases g with
      | zero => simp at hg
      | succ g =>
        cases h : tryMatch (c :: rest) with
        | some tail =>
          have hlen := tryMatch_length h
          simp only [List.length_cons] at hf hg hlen
          simp only [subScanF, h]
          rw [ih g tail (by omega) (by omega)]
        | none =>
          simp only [List.length_cons] at hf hg
          simp only [subScanF, h]
          rw [ih g rest (by omega) (by omega)]

/-- The scan of `re.sub` over a text: `re.sub` without a count replaces
EVERY non-overlapping match, left to right.  The replacement string of the
source contains no backslash escape sequences, so it is inserted
literally. -/
def subScan (repl : List Char) (s : List Char) : List Char :=
  subScanF repl s.length s

/-- Fuelled scan of Python `str.replace`: replace every non-overlapping
occurrence of `pat`, left to right.  (The source never calls it with an
empty pattern; for an empty pattern this model copies the text.) -/
def replaceAllF (pat repl : List Char) : Nat → List Char → List Char
  | _, [] => []
  | 0, s => s
  | fuel + 1, c :: rest =>
    if pat ≠ [] ∧ startsWith pat (c :: rest) = true then
      repl ++ replaceAllF pat repl fuel ((c :: rest).drop pat.length)
    else
      c :: replaceAllF pat repl fuel rest

/-- Values of `replaceAllF` agree on all sufficient fuels. -/
theorem replaceAllF_congr (pat repl : List Char) :
    ∀ (f g : Nat) (s : List Char), s.length ≤ f → s.length ≤ g →
      replaceAllF pat repl f s = replaceAllF pat repl g s := by
  intro f
  induction f with
  | zero =>
    intro g s hf _
    have hs : s = [] := List.eq_nil_of_length_eq_zero (Nat.le_zero.mp hf)
    subst hs
    cases g <;> rfl
  | succ f ih =>
    intro g s hf hg
    cases s with
    | nil => cases g <;> rfl
    | cons c rest =>
      cases g with
      | zero => simp at hg
      | succ g =>
        simp only [replaceAllF]
        by_cases hc : pat ≠ [] ∧ startsWith pat (c :: rest) = true
        · rw [if_pos hc, if_pos hc]
          have hp : 1 ≤ pat.length := by
            cases hpat : pat with
            | nil => exact absurd hpat hc.1
            | cons a l => simp
          have hd : ((c :: rest).drop pat.length).length ≤ rest.length := by
            simp only [List.length_drop, List.length_cons]
            omega
          simp only [List.length_cons] at hf hg
          rw [ih g _ (by omega) (by omega)]
        · rw [if_neg hc, if_neg hc]
          simp only [List.length_cons] at hf hg
          rw [ih g rest (by omega) (by omega)]

/-- The scan of Python `str.replace` over a text. -/
def replaceAll (pat repl : List Char) (s : List Char) : List Char :=
  replaceAllF pat repl s.length s

/-- True when the data-section pattern matches at some position of the text. -/
def hasMatch : List Char → Bool
  | [] => false
  | c :: r => (tryMatch (c :: r)).isSome || hasMatch r

/-- True when no data-section match starts at any position inside `p`, even
one that would run over into `rest`. -/
def cleanScan : List Char → List Char → Bool
  | [], _ => true
  | c :: p, rest => !(tryMatch (c :: (p ++ rest))).isSome && cleanScan p rest

/-- True when `pat` occurs as a contiguous sublist. -/
def occursB (pat : List Char) : List Char → Bool
  | [] => false
  | c :: r => startsWith pat (c :: r) || occursB pat r

/-- True when no occurrence of `pat` starts at any position inside `p`, even
one that would run over into `rest`. -/
def cleanPat (pat : List Char) : List Char → List Char → Bool
  | [], _ => true
  | c :: p, rest => !(startsWith pat (c :: (p ++ rest))) && cleanPat pat p rest

/-- A JSON-serialisable cell value as produced by `df[col].tolist()`: a
number carried by its decimal rendering (the code never computes with the
values, it only serialises them), or a text entry such as a dispense
position. -/
inductive JVal where
  | num (tok : String)
  | txt (s : String)
deriving DecidableEq, Repr

/-- Escape of one character inside a JSON string literal, as `json.dumps`
renders it (quotation mark and backslash; the data in scope holds no
control characters). -/
def jsonEscapeChar (c : Char) : List Char :=
  if c = '\\' ∨ c = '\x22' then ['\\', c] else [c]

/-- Escape of a whole string body. -/
def jsonEscape : List Char → List Char
  | [] => []
  | c :: r => jsonEscapeChar c ++ jsonEscape r

/-- Rendering of one value by `json.dumps`. -/
def JVal.render : JVal → List Char
  | .num tok => tok.data
  | .txt s => '\x22' :: (jsonEscape s.data ++ ['\x22'])

/-- Eight spaces: the first indentation level of `json.dumps(_, indent=8)`. -/
def sp8 : List Char := List.replicate 8 ' '

/-- Sixteen spaces: the second indentation level. -/
def sp16 : List Char := List.replicate 16 ' '

/-- Elements of a list, each on its own line at the second indentation
level, separated by a comma and a newline. -/
def renderElems : List JVal → List Char
  | [] => []
  | [v] => sp16 ++ v.render
  | v :: rest => sp16 ++ v.render ++ cs (",\n") ++ renderElems rest

/-- Rendering of one list value by `json.dumps(_, indent=8)`: an empty list
renders as a bare bracket pair, a nonempty one spreads over lines with the
closing bracket at the first indentation level. -/
def renderArr (vs : List JVal) : List Char :=
  if vs.isEmpty then cs ("[]")
  else cs ("[\n") ++ renderElems vs ++ cs ("\n") ++ sp8 ++ cs ("]")

/-- The canonical batch record: the four columns extracted from the data
table, in source row order. -/
structure BoData where
  colorA : List JVal
  colorB : List JVal
  colorC : List JVal
  dispensePos : List JVal
deriving DecidableEq, Repr

/-- A quoted JSON object key. -/
def keyTok (k : String) : List Char := '\x22' :: (k.data ++ ['\x22'])

/-- Rendering of the `bo_data` dictionary by `json.dumps(bo_data, indent=8)`:
the four keys appear, quoted, in exactly the insertion order of the source
dictionary literal: `colorA`, `colorB`, `colorC`, `DispensePos`. -/
def dumpsBoData (bo : BoData) : List Char :=
  cs ("\x7b\n") ++ sp8 ++ keyTok ("colorA") ++ cs (": ") ++ renderArr bo.colorA ++ cs (",\n")
    ++ sp8 ++ keyTok ("colorB") ++ cs (": ") ++ renderArr bo.colorB ++ cs (",\n")
    ++ sp8 ++ keyTok ("colorC") ++ cs (": ") ++ renderArr bo.colorC ++ cs (",\n")
    ++ sp8 ++ keyTok ("DispensePos") ++ cs (": ") ++ renderArr bo.dispensePos ++ cs ("\n\x7d")

/-- Replacement text of `.replace` applied to every opening brace. -/
def braceOpenRepl : List Char := cs ("\x7b\n        ")

/-- Replacement text of `.replace` applied to every closing brace. -/
def braceCloseRepl : List Char := cs ("\n    \x7d")

/-- The two chained `str.replace` calls the source applies to the dump:
first every opening brace, then every closing brace. -/
def pyBraceFixup (s : List Char) : List Char :=
  replaceAll [closeBrace] braceCloseRepl (replaceAll [openBrace] braceOpenRepl s)

/-- The full replacement text (`data_section` in the source): the new marker
comment embedding the iteration number, then the assignment to the
reformatted dump. -/
def dataSectionChars (bo : BoData) (iter : Nat) : List Char :=
  cs ("    # BO ITERATION DATA - BO" ++ Nat.repr iter ++ "\n    BO_DATA = ")
    ++ pyBraceFixup (dumpsBoData bo)

/-- The descriptive-label literal the source searches for. -/
def oldLabelChars : List Char :=
  cs ("\x27protocolName\x27: \x27Color Liquid Mixing - Bayesian Optimization\x27,")

/-- The iteration-specific label the source substitutes. -/
def newLabelChars (iter : Nat) : List Char :=
  cs ("\x27protocolName\x27: \x27Color Liquid Mixing - BO Iteration " ++ Nat.repr iter ++ "\x27,")

/-- The patch operation on the template text: the `re.sub` replacing every
data-section match, then the `str.replace` relabelling every occurrence of
the descriptive label. -/
def patchText (bo : BoData) (iter : Nat) (content : List Char) : List Char :=
  replaceAll oldLabelChars (newLabelChars iter) (subScan (dataSectionChars bo iter) content)

/-- A data table: named columns in their in-memory order. -/
abbrev Table := List (String × List JVal)

/-- Column access by name, as `df[name]`. -/
def getCol (t : Table) (name : String) : Option (List JVal) := t.lookup name

/-- The Python exception the generator can raise past its own frame. -/
inductive PyErr where
  | keyError (col : String)
deriving DecidableEq, Repr

/-- Observable outcome of one of the Python functions: a returned value, the
`None` the source returns after a caught failure, or an uncaught exception. -/
inductive PyOutcome (α : Type) where
  | ok (a : α)
  | noneReturn
  | raised (e : PyErr)
deriving DecidableEq, Repr

/-- The `bo_data` dictionary construction: the four required columns are
read in the fixed order of the source literal; the first missing one raises
`KeyError`. -/
def buildBoData (t : Table) : Except PyErr BoData :=
  match getCol t ("colorA") with
  | none => .error (.keyError ("colorA"))
  | some a =>
    match getCol t ("colorB") with
    | none => .error (.keyError ("colorB"))
    | some b =>
      match getCol t ("colorC") with
      | none => .error (.keyError ("colorC"))
      | some c =>
        match getCol t ("DispensePos") with
        | none => .error (.keyError ("DispensePos"))
        | some d => .ok ⟨a, b, c, d⟩

/-- Equality of `Except` results is decidable when both sides are. -/
instance exceptDecEq {α β : Type} [DecidableEq α] [DecidableEq β] :
    DecidableEq (Except α β) := fun x y =>
  match x, y with
  | .ok a, .ok b =>
    if h : a = b then isTrue (by rw [h])
    else isFalse (by intro hc; cases hc; exact h rfl)
  | .error a, .error b =>
    if h : a = b then isTrue (by rw [h])
    else isFalse (by intro hc; cases hc; exact h rfl)
  | .ok _, .error _ => isFalse (by intro hc; cases hc)
  | .error _, .ok _ => isFalse (by intro hc; cases hc)

/-- Name of the output artifact for one iteration. -/
def protocolFilename (iter : Nat) : String :=
  "color_mixing_BO" ++ Nat.repr iter ++ ".py"

/-- Content-level model of `generate_protocol_from_csv`: the CSV source and
the base template arrive already read (`none` models a read failure, which
the source catches and turns into a `None` return).  A missing column
raises `KeyError` out of the function.  On success the artifact, named
filename plus patched content, is returned; the source writes exactly this
content to the destination, and writes nothing in every other branch. -/
def generateFromCsv (csv : Option Table) (tmpl : Option (List Char)) (iter : Nat) :
    PyOutcome (String × List Char) :=
  match csv with
  | none => .noneReturn
  | some t =>
    match buildBoData t with
    | .error e => .raised e
    | .ok bo =>
      match tmpl with
      | none => .noneReturn
      | some content => .ok (protocolFilename iter, patchText bo iter content)

/-- Content-level model of `generate_protocol_from_dataframe`: the table is
handed over directly; the remaining steps are the same code, duplicated in
the source. -/
def generateFromDataframe (df : Table) (tmpl : Option (List Char)) (iter : Nat) :
    PyOutcome (String × List Char) :=
  match buildBoData df with
  | .error e => .raised e
  | .ok bo =>
    match tmpl with
    | none => .noneReturn
    | some content => .ok (protocolFilename iter, patchText bo iter content)

/-- ASCII decimal digit test (`\d` of the source regex, on the ASCII paths
in scope). -/
def isDig (c : Char) : Bool := '0' ≤ c && c ≤ '9'

/-- Value of a digit string, as `int()` parses the captured group. -/
def digitsToNat (ds : List Char) : Nat :=
  ds.foldl (fun a c => a * 10 + (c.toNat - ('0').toNat)) 0

/-- The literal part of the filename pattern `BO_R(\d+)`. -/
def borLit : List Char := cs ("BO_R")

/-- Attempt of the pattern `BO_R(\d+)` at the head of `s`: the literal, then
a maximal nonempty run of digits, whose value is returned. -/
def tryBOR (s : List Char) : Option Nat :=
  if startsWith borLit s then
    let ds := (s.drop borLit.length).takeWhile isDig
    if ds.isEmpty then none else some (digitsToNat ds)
  else none

/-- The scan of `re.search`: leftmost position at which the pattern
matches. -/
def findBOR : List Char → Option Nat
  | [] => none
  | c :: r =>
    match tryBOR (c :: r) with
    | some n => some n
    | none => findBOR r

/-- Iteration number resolved from the source path by
`update_csv_data_handler`: the value captured by the first `BO_R(\d+)`
match, or 0 when the pattern matches nowhere. -/
def extractIteration (path : List Char) : Nat := (findBOR path).getD 0

/-- True when the filename pattern matches at no position of `s`. -/
def noBOR : List Char → Bool
  | [] => true
  | c :: r => !(tryBOR (c :: r)).isSome && noBOR r

/-- True when the filename pattern matches at no position inside `p`, even
running over into `rest`. -/
def cleanBOR : List Char → List Char → Bool
  | [], _ => true
  | c :: p, rest => !(tryBOR (c :: (p ++ rest))).isSome && cleanBOR p rest

/-- True when the first character, if any, is not a digit. -/
def headNotDig : List Char → Bool
  | [] => true
  | c :: _ => !(isDig c)

/-- Model of `update_csv_data_handler`: resolve the iteration number from
the path, run the CSV generator, and catch any exception into a `None`
return. -/
def updateCsvDataHandler (path : List Char) (csv : Option Table)
    (tmpl : Option (List Char)) : PyOutcome (String × List Char) :=
  match generateFromCsv csv tmpl (extractIteration path) with
  | .raised _ => .noneReturn
  | r => r

/-! Unfolding and characterisation lemmas for the scanners. -/

/-- The pattern fails on the empty text. -/
theorem tryMatch_nil : tryMatch [] = none := rfl

/-- An option whose `isSome` is false is `none`. -/
theorem isSome_false {α : Type} {o : Option α} (h : o.isSome = false) : o = none := by
  cases o <;> simp_all

/-- Unfolding of `subScan` at a match. -/
theorem subScan_match {s tail : List Char} (repl : List Char)
    (h : tryMatch s = some tail) :
    subScan repl s = repl ++ subScan repl tail := by
  cases s with
  | nil => rw [tryMatch_nil] at h; cases h
  | cons c rest =>
    have hlen := tryMatch_length h
    simp only [List.length_cons] at hlen
    simp only [subScan, List.length_cons, subScanF, h]
    rw [subScanF_congr repl rest.length tail.length tail (by omega) (by omega)]

/-- Unfolding of `subScan` at a non-match. -/
theorem subScan_cons_none {c : Char} {rest : List Char} (repl : List Char)
    (h : tryMatch (c :: rest) = none) :
    subScan repl (c :: rest) = c :: subScan repl rest := by
  simp only [subScan, List.length_cons, subScanF, h]

/-- Text with no match anywhere passes through `subScan` unchanged. -/
theorem subScan_noMatch {t : List Char} (repl : List Char)
    (h : hasMatch t = false) : subScan repl t = t := by
  induction t with
  | nil => rfl
  | cons c r ih =>
    simp only [hasMatch, Bool.or_eq_false_iff] at h
    rw [subScan_cons_none repl (isSome_false h.1), ih h.2]

/-- A prefix inside which no match starts passes through `subScan`
unchanged. -/
theorem subScan_clean {p rest : List Char} (repl : List Char)
    (h : cleanScan p rest = true) :
    subScan repl (p ++ rest) = p ++ subScan repl rest := by
  induction p with
  | nil => simp
  | cons c p ih =>
    simp only [cleanScan, Bool.and_eq_true, Bool.not_eq_true', Bool.not_eq_false] at h
    rw [List.cons_append, subScan_cons_none repl (isSome_false h.1), ih h.2,
      List.cons_append]

/-- The `re.sub` scan across one well-formed data-section block: the prefix
and the suffix are copied byte for byte and the block becomes the
replacement text. -/
theorem subScan_block {pre inner suf : List Char} (repl : List Char)
    (hpre : cleanScan pre (litChars ++ (inner ++ closeBrace :: suf)) = true)
    (h1 : inner ≠ []) (h2 : ∀ c ∈ inner, c ≠ closeBrace)
    (hsuf : hasMatch suf = false) :
    subScan repl (pre ++ (litChars ++ (inner ++ closeBrace :: suf))) =
      pre ++ (repl ++ suf) := by
  rw [subScan_clean repl hpre,
    subScan_match repl (tryMatch_block inner suf h1 h2), subScan_noMatch repl hsuf]

/-- Unfolding of `replaceAll` on the empty text. -/
theorem replaceAll_nil (pat repl : List Char) : replaceAll pat repl [] = [] := rfl

/-- Unfolding of `replaceAll` at a non-occurrence. -/
theorem replaceAll_cons_neg {pat : List Char} {c : Char} {rest : List Char}
    (repl : List Char) (h : startsWith pat (c :: rest) = false) :
    replaceAll pat repl (c :: rest) = c :: replaceAll pat repl rest := by
  have hc : ¬ (pat ≠ [] ∧ startsWith pat (c :: rest) = true) := by
    intro hcon
    rw [h] at hcon
    exact Bool.false_ne_true hcon.2
  simp only [replaceAll, List.length_cons, replaceAllF, if_neg hc]

/-- Unfolding of `replaceAll` at an occurrence. -/
theorem replaceAll_head {pat : List Char} (repl rest : List Char)
    (hp : pat ≠ []) :
    replaceAll pat repl (pat ++ rest) = repl ++ replaceAll pat repl rest := by
  cases hpat : pat with
  | nil => exact absurd hpat hp
  | cons a p =>
    have hsw : startsWith (a :: p) (a :: (p ++ rest)) = true := by
      have := startsWith_append (a :: p) rest
      simpa using this
    have hcond : a :: p ≠ [] ∧ startsWith (a :: p) (a :: (p ++ rest)) = true :=
      ⟨List.cons_ne_nil a p, hsw⟩
    have hdrop : List.drop (p.length + 1) (a :: (p ++ rest)) = rest := by
      have := List.drop_left (a :: p) rest
      simpa using this
    rw [List.cons_append]
    simp only [replaceAll, List.length_cons, replaceAllF, if_pos hcond, hdrop]
    rw [replaceAllF_congr (a :: p) repl (p ++ rest).length rest.length rest
      (by simp [List.length_append]) (by omega)]

/-- Text with no occurrence of the pattern passes through `replaceAll`
unchanged. -/
theorem replaceAll_noOccur {pat t : List Char} (repl : List Char)
    (h : occursB pat t = false) : replaceAll pat repl t = t := by
  induction t with
  | nil => rfl
  | cons c r ih =>
    simp [occursB] at h
    rw [replaceAll_cons_neg repl h.1, ih h.2]

/-- A prefix inside which no occurrence starts passes through `replaceAll`
unchanged. -/
theorem replaceAll_clean {pat p rest : List Char} (repl : List Char)
    (h : cleanPat pat p rest = true) :
    replaceAll pat repl (p ++ rest) = p ++ replaceAll pat repl rest := by
  induction p with
  | nil => simp
  | cons c p ih =>
    simp only [cleanPat, Bool.and_eq_true, Bool.not_eq_true'] at h
    rw [List.cons_append, replaceAll_cons_neg repl h.1, ih h.2, List.cons_append]

/-- The `str.replace` on a text holding exactly one occurrence of the
pattern. -/
theorem replaceAll_single {pat a b : List Char} (repl : List Char)
    (hp : pat ≠ []) (h1 : cleanPat pat a (pat ++ b) = true)
    (h2 : occursB pat b = false) :
    replaceAll pat repl (a ++ (pat ++ b)) = a ++ (repl ++ b) := by
  rw [replaceAll_clean repl h1, replaceAll_head repl b hp, replaceAll_noOccur repl h2]

/-! Lemmas for the iteration-number scan. -/

/-- The filename pattern fails on the empty text. -/
theorem tryBOR_nil : tryBOR [] = none := rfl

/-- Unfolding of `findBOR` at a match. -/
theorem findBOR_head {s : List Char} {n : Nat} (h : tryBOR s = some n) :
    findBOR s = some n := by
  cases s with
  | nil => rw [tryBOR_nil] at h; cases h
  | cons c r => rw [findBOR]; split <;> simp_all

/-- A prefix inside which the filename pattern never matches is skipped by
the search. -/
theorem findBOR_clean {p rest : List Char} (h : cleanBOR p rest = true) :
    findBOR (p ++ rest) = findBOR rest := by
  induction p with
  | nil => simp
  | cons c p ih =>
    simp only [cleanBOR, Bool.and_eq_true, Bool.not_eq_true', Bool.not_eq_false] at h
    rw [List.cons_append, findBOR, isSome_false h.1]
    exact ih h.2

/-- Text where the filename pattern never matches makes the search fail. -/
theorem findBOR_none {s : List Char} (h : noBOR s = true) : findBOR s = none := by
  induction s with
  | nil => rfl
  | cons c r ih =>
    simp only [noBOR, Bool.and_eq_true, Bool.not_eq_true', Bool.not_eq_false] at h
    rw [findBOR, isSome_false h.1]
    exact ih h.2

/-- Taking while a predicate holds walks through a block where it holds
everywhere. -/
theorem takeWhile_append_all {p : Char → Bool} (xs ys : List Char)
    (h : ∀ c ∈ xs, p c = true) :
    (xs ++ ys).takeWhile p = xs ++ ys.takeWhile p := by
  induction xs with
  | nil => simp
  | cons c xs ih =>
    have hc : p c = true := h c (by simp)
    simp only [List.cons_append, List.takeWhile_cons, hc, if_true]
    rw [ih (fun d hd => h d (by simp [hd]))]

/-- Taking while a predicate holds stops at once when the head fails it. -/
theorem takeWhile_headNot {p : Char → Bool} (ys : List Char)
    (h : ∀ c, ys.head? = some c → p c = false) :
    ys.takeWhile p = [] := by
  cases ys with
  | nil => rfl
  | cons c r =>
    have hc : p c = false := h c rfl
    simp [List.takeWhile_cons, hc]

/-- Computation of `tryBOR` on an explicitly decomposed match: the digit run
is maximal and its parsed value is returned. -/
theorem tryBOR_block (ds suf : List Char) (h1 : ds ≠ [])
    (h2 : ∀ c ∈ ds, isDig c = true) (h3 : headNotDig suf = true) :
    tryBOR (borLit ++ (ds ++ suf)) = some (digitsToNat ds) := by
  have hsw := startsWith_append borLit (ds ++ suf)
  have hdrop : (borLit ++ (ds ++ suf)).drop borLit.length = ds ++ suf :=
    List.drop_left _ _
  have htw : (ds ++ suf).takeWhile isDig = ds := by
    rw [takeWhile_append_all ds suf h2]
    have hsuf : suf.takeWhile isDig = [] := by
      apply takeWhile_headNot
      intro c hc
      cases suf with
      | nil => cases hc
      | cons d r =>
        simp at hc
        subst hc
        simpa [headNotDig] using h3
    rw [hsuf, List.append_nil]
  rw [tryBOR, hsw, if_pos rfl]
  simp only [hdrop, htw]
  simp [h1]

/-! Concrete fixtures used by the counterexamples and witnesses. -/

/-- The batch of the concrete scenario: colorA = [1.0, 2.0],
colorB = [3.0, 4.0], colorC = [5.0, 6.0], dispense positions A1, A2. -/
def batchC1 : BoData :=
  ⟨[.num ("1.0"), .num ("2.0")], [.num ("3.0"), .num ("4.0")],
   [.num ("5.0"), .num ("6.0")], [.txt ("A1"), .txt ("A2")]⟩

/-- A table carrying all four required columns for that batch. -/
def tableC1 : Table :=
  [(("colorA"), [.num ("1.0"), .num ("2.0")]),
   (("colorB"), [.num ("3.0"), .num ("4.0")]),
   (("colorC"), [.num ("5.0"), .num ("6.0")]),
   (("DispensePos"), [.txt ("A1"), .txt ("A2")])]

/-- The same table assembled in reverse column order. -/
def tableC1rev : Table :=
  [(("DispensePos"), [.txt ("A1"), .txt ("A2")]),
   (("colorC"), [.num ("5.0"), .num ("6.0")]),
   (("colorB"), [.num ("3.0"), .num ("4.0")]),
   (("colorA"), [.num ("1.0"), .num ("2.0")])]

/-- A table missing the required column colorC. -/
def tableMissC : Table :=
  [(("colorA"), [.num ("1.0")]), (("colorB"), [.num ("3.0")]),
   (("DispensePos"), [.txt ("A1")])]

/-- The base template text of the concrete scenario exactly as the claim
words it: the marker line is the eight-word one of the claim and the data
literal is the empty brace pair. -/
def baseC1 : List Char :=
  cs ("from opentrons import protocol_api\nmetadata = \x7b\n    \x27protocolName\x27: \x27Base\x27,\n\x7d\n\ndef run(protocol):\n    # ITERATION DATA - WILL BE REPLACED\n    BO_DATA = \x7b\x7d\n    pass\n")

/-- The data line the claim expects in the output. -/
def claimedData : List Char :=
  cs ("BO_DATA = \x7bcolorA: [1.0, 2.0], colorB: [3.0, 4.0], colorC: [5.0, 6.0], DispensePos: [\x22A1\x22,\x22A2\x22]\x7d")

/-- The label the claim expects in the output. -/
def claimedLabel : List Char := cs ("\x27protocolName\x27: \x27Iteration 2\x27,")


/-- First piece of the faithful template: everything before the
descriptive label. -/
def p1C1 : List Char := cs ("from opentrons import protocol_api\nmetadata = \x7b\n    ")

/-- Second piece: from after the label to the marker line. -/
def p2C1 : List Char := cs ("\n\x7d\n\ndef run(protocol):\n")

/-- The placeholder brace body of the faithful template (nonempty, no
closing brace). -/
def innerC1 : List Char :=
  cs ("\x27colorA\x27: [], \x27colorB\x27: [], \x27colorC\x27: [], \x27DispensePos\x27: []")

/-- Trailing lines of the faithful template. -/
def sufC1 : List Char := cs ("\n    pass\n")

/-- A base template faithful to what the code actually recognises: the
exact marker line of the source pattern, a nonempty brace body, and the
exact descriptive-label literal. -/
def baseOkC1 : List Char :=
  p1C1 ++ (oldLabelChars ++ (p2C1 ++ (litChars ++ (innerC1 ++ closeBrace :: sufC1))))

/-- A template holding the marker and the opening brace but no closing
brace at all: the scanned region has unbalanced braces and the pattern
cannot match. -/
def tC2 : List Char := cs ("x = 1\n") ++ (litChars ++ cs ("no close brace here\n"))

/-- Lines before the marker in the nested-brace template. -/
def preC3 : List Char := cs ("header()\n")

/-- The part of the nested data literal up to the first closing brace: it
contains a nested opening brace. -/
def nestC3 : List Char := cs ("x: \x7b1")

/-- The tail of the nested data literal after its first closing brace. -/
def remnantC3 : List Char := cs (", y: 2\x7d")

/-- Trailing lines of the nested-brace template. -/
def sufC3 : List Char := cs ("\ntail\n")

/-- A template whose data literal `\x7bx: \x7b1\x7d, y: 2\x7d` contains a
nested brace-delimited structure. -/
def tC3 : List Char :=
  preC3 ++ (litChars ++ (nestC3 ++ closeBrace :: (remnantC3 ++ sufC3)))

/-- A concrete match input for the truncation witness. -/
def sC3w : List Char := litChars ++ (cs ("a: \x7bb") ++ closeBrace :: cs ("Z"))

/-- Lines before the first candidate region. -/
def preC4 : List Char := cs ("A\n")

/-- Brace body of the first candidate region. -/
def iOneC4 : List Char := cs ("one")

/-- Lines between the two candidate regions. -/
def midC4 : List Char := cs ("\nM\n")

/-- Brace body of the second candidate region. -/
def iTwoC4 : List Char := cs ("two")

/-- Trailing lines of the two-region template. -/
def sufC4 : List Char := cs ("\nZ\n")

/-- A template holding two complete candidate mutable regions. -/
def tC4 : List Char :=
  preC4 ++ (litChars ++ (iOneC4 ++ closeBrace ::
    (midC4 ++ (litChars ++ (iTwoC4 ++ closeBrace :: sufC4)))))

/-- Lines before the first label occurrence. -/
def aC8 : List Char := cs ("A\n")

/-- Lines between the two label occurrences. -/
def mC8 : List Char := cs ("\nB\n")

/-- Lines after the second label occurrence. -/
def bC8 : List Char := cs ("\nC\n")

/-- A template holding the descriptive-label literal twice and no data
region. -/
def tC8 : List Char := aC8 ++ (oldLabelChars ++ (mC8 ++ (oldLabelChars ++ bC8)))

/-- The label literal is not the empty string. -/
theorem oldLabel_ne_nil : oldLabelChars ≠ [] := by decide

/-! The claims. -/

/-- C1, counterexample.  On the base template exactly as the claim words it
(marker line `# ITERATION DATA - WILL BE REPLACED`, data literal an empty
brace pair, label `protocolName: Base`), the code patches nothing: the
marker differs from the one the source regex requires, and the regex brace
body `[^\x7d]+` cannot match an empty pair.  The output equals the input
and contains neither of the two strings the claim promises. -/
theorem C1_counterexample :
    patchText batchC1 2 baseC1 = baseC1 ∧
    occursB claimedLabel (patchText batchC1 2 baseC1) = false ∧
    occursB claimedData (patchText batchC1 2 baseC1) = false := by
  refine ⟨by decide, by decide, by decide⟩

/-- C1, amended claim.  For the base template containing the marker line
`    # BO ITERATION DATA - WILL BE REPLACED DYNAMICALLY` followed by
`    BO_DATA = ` with a NONEMPTY brace body, and the label
`protocolName: Color Liquid Mixing - Bayesian Optimization`, patching with
the batch colorA=[1.0,2.0], colorB=[3.0,4.0], colorC=[5.0,6.0],
dispensePosition=[A1,A2] and iteration 2 replaces the data region by
`    # BO ITERATION DATA - BO2` and the assignment of the JSON-serialised
batch, replaces the label by the BO-Iteration-2 variant, and leaves every
other line unchanged. -/
theorem C1_amended_scenario :
    patchText batchC1 2 baseOkC1 =
      p1C1 ++ (newLabelChars 2 ++ (p2C1 ++ (dataSectionChars batchC1 2 ++ sufC1))) := by
  decide

/-- C2, counterexample.  On a template whose scanned region has an opening
brace but no closing brace (unbalanced), generation does not fail: the
artifact is produced and holds the template text completely unpatched. -/
theorem C2_counterexample :
    generateFromCsv (some tableC1) (some tC2) 2 = .ok (protocolFilename 2, tC2) := by
  decide

/-- C2, amended claim.  When the data-section pattern matches nowhere in
the base text (no marker, empty brace body, or unbalanced braces), no
error of any kind is raised: the data substitution is a no-op and the
otherwise-processed text, with only the label replacement applied, is
still returned for writing to the destination. -/
theorem C2_amended_no_error :
    ∀ (tbl : Table) (bo : BoData) (iter : Nat) (t : List Char),
      buildBoData tbl = .ok bo → hasMatch t = false →
      generateFromCsv (some tbl) (some t) iter =
        .ok (protocolFilename iter, replaceAll oldLabelChars (newLabelChars iter) t) := by
  intro tbl bo iter t hb hm
  simp only [generateFromCsv, hb]
  rw [patchText, subScan_noMatch _ hm]

/-- C2, witness for the amended claim at a concrete table and template. -/
theorem C2_amended_witness :
    generateFromCsv (some tableC1) (some tC2) 7 =
      .ok (protocolFilename 7, replaceAll oldLabelChars (newLabelChars 7) tC2) :=
  C2_amended_no_error tableC1 batchC1 7 tC2 (by decide) (by decide)

/-- C3, counterexample.  On a template whose data literal contains a nested
brace structure, the match stops at the FIRST closing brace: the tail of
the literal survives in the output, instead of the whole literal being
replaced up to the balanced closing brace. -/
theorem C3_counterexample :
    patchText batchC1 2 tC3 =
      preC3 ++ (dataSectionChars batchC1 2 ++ (remnantC3 ++ sufC3)) ∧
    patchText batchC1 2 tC3 ≠
      preC3 ++ (dataSectionChars batchC1 2 ++ sufC3) := by
  refine ⟨by decide, by decide⟩

/-- C3, amended claim.  The located region never extends past the first
closing brace: every successful match decomposes the text as the marker
literal, a nonempty body FREE of closing braces, one closing brace, and
the rest; the substitution replaces exactly that span.  Nested structures
are therefore truncated at the first inner closing brace, not protected by
brace balancing. -/
theorem C3_amended_first_close :
    ∀ (repl s rest : List Char), tryMatch s = some rest →
      (∃ inner, inner ≠ [] ∧ (∀ c ∈ inner, c ≠ closeBrace) ∧
        s = litChars ++ (inner ++ closeBrace :: rest)) ∧
      subScan repl s = repl ++ subScan repl rest := by
  intro repl s rest h
  exact ⟨tryMatch_some h, subScan_match repl h⟩

/-- C3, witness for the amended claim at a concrete matching text. -/
theorem C3_amended_witness :
    (∃ inner, inner ≠ [] ∧ (∀ c ∈ inner, c ≠ closeBrace) ∧
      sC3w = litChars ++ (inner ++ closeBrace :: cs ("Z"))) ∧
    subScan [] sC3w = [] ++ subScan [] (cs ("Z")) :=
  C3_amended_first_close [] sC3w (cs ("Z")) (by decide)

/-- C4, counterexample.  On a template holding two candidate mutable
regions, the patch rewrites BOTH: the second region is not left
byte-for-byte unchanged. -/
theorem C4_counterexample :
    patchText batchC1 2 tC4 =
      preC4 ++ (dataSectionChars batchC1 2 ++
        (midC4 ++ (dataSectionChars batchC1 2 ++ sufC4))) ∧
    patchText batchC1 2 tC4 ≠
      preC4 ++ (dataSectionChars batchC1 2 ++
        (midC4 ++ (litChars ++ (iTwoC4 ++ closeBrace :: sufC4)))) := by
  refine ⟨by decide, by decide⟩

/-- C4, amended claim.  `re.sub` without a count replaces every
non-overlapping candidate region, left to right: on a text with two
well-formed regions both are replaced. -/
theorem C4_amended_all_replaced :
    ∀ (repl pre mid suf i1 i2 : List Char),
      cleanScan pre (litChars ++ (i1 ++ closeBrace ::
        (mid ++ (litChars ++ (i2 ++ closeBrace :: suf))))) = true →
      i1 ≠ [] → (∀ c ∈ i1, c ≠ closeBrace) →
      cleanScan mid (litChars ++ (i2 ++ closeBrace :: suf)) = true →
      i2 ≠ [] → (∀ c ∈ i2, c ≠ closeBrace) →
      hasMatch suf = false →
      subScan repl (pre ++ (litChars ++ (i1 ++ closeBrace ::
          (mid ++ (litChars ++ (i2 ++ closeBrace :: suf)))))) =
        pre ++ (repl ++ (mid ++ (repl ++ suf))) := by
  intro repl pre mid suf i1 i2 hpre h1 h2 hmid h3 h4 hsuf
  rw [subScan_clean repl hpre,
    subScan_match repl
      (tryMatch_block i1 (mid ++ (litChars ++ (i2 ++ closeBrace :: suf))) h1 h2),
    subScan_clean repl hmid,
    subScan_match repl (tryMatch_block i2 suf h3 h4),
    subScan_noMatch repl hsuf]

/-- C4, witness for the amended claim at a concrete two-region template. -/
theorem C4_amended_witness :
    subScan (cs ("R")) (preC4 ++ (litChars ++ (iOneC4 ++ closeBrace ::
        (midC4 ++ (litChars ++ (iTwoC4 ++ closeBrace :: sufC4)))))) =
      preC4 ++ (cs ("R") ++ (midC4 ++ (cs ("R") ++ sufC4))) :=
  C4_amended_all_replaced (cs ("R")) preC4 midC4 sufC4 iOneC4 iTwoC4
    (by decide) (by decide) (by decide) (by decide) (by decide) (by decide) (by decide)

/-- C5.  Frame property of the patch: for a template decomposed as leading
text, the single descriptive-label occurrence, middle text, the single
well-formed mutable region, and trailing text (the hypotheses say exactly
that no further region match or label occurrence exists), the patched text
is the same decomposition with only the label and the region rewritten:
every byte of the leading, middle and trailing text is preserved in
order. -/
theorem C5_frame_preservation :
    ∀ (bo : BoData) (iter : Nat) (p1 p2 inner suf : List Char),
      cleanScan (p1 ++ (oldLabelChars ++ p2))
        (litChars ++ (inner ++ closeBrace :: suf)) = true →
      inner ≠ [] → (∀ c ∈ inner, c ≠ closeBrace) →
      hasMatch suf = false →
      cleanPat oldLabelChars p1
        (oldLabelChars ++ (p2 ++ (dataSectionChars bo iter ++ suf))) = true →
      occursB oldLabelChars (p2 ++ (dataSectionChars bo iter ++ suf)) = false →
      patchText bo iter
          (p1 ++ (oldLabelChars ++ (p2 ++ (litChars ++ (inner ++ closeBrace :: suf))))) =
        p1 ++ (newLabelChars iter ++ (p2 ++ (dataSectionChars bo iter ++ suf))) := by
  intro bo iter p1 p2 inner suf hscan h1 h2 hsuf hpat hocc
  have hT : p1 ++ (oldLabelChars ++ (p2 ++ (litChars ++ (inner ++ closeBrace :: suf)))) =
      (p1 ++ (oldLabelChars ++ p2)) ++ (litChars ++ (inner ++ closeBrace :: suf)) := by
    simp [List.append_assoc]
  rw [patchText, hT, subScan_clean _ hscan,
    subScan_match _ (tryMatch_block inner suf h1 h2), subScan_noMatch _ hsuf]
  have hT2 : (p1 ++ (oldLabelChars ++ p2)) ++ (dataSectionChars bo iter ++ suf) =
      p1 ++ (oldLabelChars ++ (p2 ++ (dataSectionChars bo iter ++ suf))) := by
    simp [List.append_assoc]
  rw [hT2, replaceAll_single _ oldLabel_ne_nil hpat hocc]

/-- C5, witness at a concrete template with one label occurrence and one
region. -/
theorem C5_frame_witness :
    patchText batchC1 2
        (cs ("A\n") ++ (oldLabelChars ++ (cs ("\nB\n") ++
          (litChars ++ (cs ("x") ++ closeBrace :: cs ("\nC\n")))))) =
      cs ("A\n") ++ (newLabelChars 2 ++ (cs ("\nB\n") ++
        (dataSectionChars batchC1 2 ++ cs ("\nC\n")))) :=
  C5_frame_preservation batchC1 2 (cs ("A\n")) (cs ("\nB\n")) (cs ("x")) (cs ("\nC\n"))
    (by decide) (by decide) (by decide) (by decide) (by decide) (by decide)

/-- C6.  Serialisation of a batch is deterministic: it is a pure function
of the batch record (equal batches serialise to byte-identical text), the
batch built from a table depends only on the four named column lookups and
not on the in-memory column order, and the serialised mapping lists the
four quoted keys in the fixed order colorA, colorB, colorC,
DispensePos. -/
theorem C6_serialization_deterministic :
    (∀ b1 b2 : BoData, b1 = b2 → dumpsBoData b1 = dumpsBoData b2) ∧
    (∀ t1 t2 : Table,
       getCol t1 ("colorA") = getCol t2 ("colorA") →
       getCol t1 ("colorB") = getCol t2 ("colorB") →
       getCol t1 ("colorC") = getCol t2 ("colorC") →
       getCol t1 ("DispensePos") = getCol t2 ("DispensePos") →
       buildBoData t1 = buildBoData t2) ∧
    (∀ b : BoData, ∃ s1 s2 s3 s4 s5, dumpsBoData b =
       s1 ++ (keyTok ("colorA") ++ (s2 ++ (keyTok ("colorB") ++
         (s3 ++ (keyTok ("colorC") ++ (s4 ++ (keyTok ("DispensePos") ++ s5)))))))) := by
  refine ⟨?_, ?_, ?_⟩
  · intro b1 b2 h
    rw [h]
  · intro t1 t2 h1 h2 h3 h4
    simp only [buildBoData]
    rw [h1, h2, h3, h4]
  · intro b
    refine ⟨cs ("\x7b\n") ++ sp8,
      cs (": ") ++ (renderArr b.colorA ++ (cs (",\n") ++ sp8)),
      cs (": ") ++ (renderArr b.colorB ++ (cs (",\n") ++ sp8)),
      cs (": ") ++ (renderArr b.colorC ++ (cs (",\n") ++ sp8)),
      cs (": ") ++ (renderArr b.dispensePos ++ cs ("\n\x7d")), ?_⟩
    simp only [dumpsBoData, List.append_assoc]

/-- C6, witness: identical batches and two column-permuted tables. -/
theorem C6_witness :
    dumpsBoData batchC1 = dumpsBoData batchC1 ∧
    buildBoData tableC1 = buildBoData tableC1rev :=
  ⟨C6_serialization_deterministic.1 batchC1 batchC1 rfl,
   C6_serialization_deterministic.2.1 tableC1 tableC1rev
     (by decide) (by decide) (by decide) (by decide)⟩

/-- C7.  A table missing the required column colorC makes generation fail
with the missing-column exception before any artifact content exists: the
generator raises a `KeyError`, never returns an artifact, and the handler
that catches the exception returns `None`. -/
theorem C7_schema_error :
    ∀ (t : Table) (tmpl : Option (List Char)) (iter : Nat) (path : List Char),
      getCol t ("colorC") = none →
      (∃ c, generateFromCsv (some t) tmpl iter = .raised (.keyError c)) ∧
      (∀ out, generateFromCsv (some t) tmpl iter ≠ .ok out) ∧
      updateCsvDataHandler path (some t) tmpl = .noneReturn := by
  intro t tmpl iter path hC
  have hb : ∃ c, buildBoData t = .error (.keyError c) := by
    unfold buildBoData
    cases hA : getCol t ("colorA") with
    | none => exact ⟨("colorA"), rfl⟩
    | some a =>
      cases hB : getCol t ("colorB") with
      | none => exact ⟨("colorB"), rfl⟩
      | some b =>
        rw [hC]
        exact ⟨("colorC"), rfl⟩
  obtain ⟨c, hb⟩ := hb
  refine ⟨⟨c, ?_⟩, ?_, ?_⟩
  · simp only [generateFromCsv, hb]
  · intro out hout
    simp only [generateFromCsv, hb] at hout
    cases hout
  · simp only [updateCsvDataHandler, generateFromCsv, hb]

/-- C7, witness at a concrete table lacking colorC. -/
theorem C7_witness :
    (∃ c, generateFromCsv (some tableMissC) (some baseC1) 1 = .raised (.keyError c)) ∧
    (∀ out, generateFromCsv (some tableMissC) (some baseC1) 1 ≠ .ok out) ∧
    updateCsvDataHandler (cs ("data/BO_R1.csv")) (some tableMissC) (some baseC1) =
      .noneReturn :=
  C7_schema_error tableMissC (some baseC1) 1 (cs ("data/BO_R1.csv")) (by decide)

/-- C8, counterexample.  On a text holding the descriptive-label literal
twice, the relabel step (Python `str.replace` without a count) rewrites
BOTH occurrences, not at most one. -/
theorem C8_counterexample :
    patchText batchC1 2 tC8 =
      aC8 ++ (newLabelChars 2 ++ (mC8 ++ (newLabelChars 2 ++ bC8))) ∧
    patchText batchC1 2 tC8 ≠
      aC8 ++ (newLabelChars 2 ++ (mC8 ++ (oldLabelChars ++ bC8))) := by
  refine ⟨by decide, by decide⟩

/-- C8, amended claim.  The relabel step replaces EVERY occurrence of the
descriptive-label literal (two occurrences both change); when the literal
is absent the otherwise-patched text is returned unchanged, and the code
emits no notification of the absence. -/
theorem C8_amended_relabel :
    (∀ (iter : Nat) (a m b : List Char),
       cleanPat oldLabelChars a
         (oldLabelChars ++ (m ++ (oldLabelChars ++ b))) = true →
       cleanPat oldLabelChars m (oldLabelChars ++ b) = true →
       occursB oldLabelChars b = false →
       replaceAll oldLabelChars (newLabelChars iter)
           (a ++ (oldLabelChars ++ (m ++ (oldLabelChars ++ b)))) =
         a ++ (newLabelChars iter ++ (m ++ (newLabelChars iter ++ b)))) ∧
    (∀ (iter : Nat) (t : List Char), occursB oldLabelChars t = false →
       replaceAll oldLabelChars (newLabelChars iter) t = t) := by
  constructor
  · intro iter a m b h1 h2 h3
    rw [replaceAll_clean _ h1, replaceAll_head _ _ oldLabel_ne_nil,
      replaceAll_clean _ h2, replaceAll_head _ _ oldLabel_ne_nil,
      replaceAll_noOccur _ h3]
  · intro iter t h
    exact replaceAll_noOccur _ h

/-- C8, witness: both occurrences rewritten at a concrete text; a concrete
label-free text unchanged. -/
theorem C8_witness :
    replaceAll oldLabelChars (newLabelChars 3)
        (aC8 ++ (oldLabelChars ++ (mC8 ++ (oldLabelChars ++ bC8)))) =
      aC8 ++ (newLabelChars 3 ++ (mC8 ++ (newLabelChars 3 ++ bC8))) ∧
    replaceAll oldLabelChars (newLabelChars 3) (cs ("plain text\n")) =
      cs ("plain text\n") :=
  ⟨C8_amended_relabel.1 3 aC8 mC8 bC8 (by decide) (by decide) (by decide),
   C8_amended_relabel.2 3 (cs ("plain text\n")) (by decide)⟩

/-- C9.  The iteration identifier used for the output artifact is a natural
number resolved from the source path: it is the value of the digit run
captured by the FIRST occurrence of the `BO_R` followed by digits pattern
(the hypotheses say no earlier position matches and the digit run is
maximal), and it defaults to 0 whenever the pattern matches nowhere in the
path. -/
theorem C9_iteration_identifier :
    (∀ (pre ds suf : List Char),
       cleanBOR pre (borLit ++ (ds ++ suf)) = true → ds ≠ [] →
       (∀ c ∈ ds, isDig c = true) → headNotDig suf = true →
       extractIteration (pre ++ (borLit ++ (ds ++ suf))) = digitsToNat ds) ∧
    (∀ s : List Char, noBOR s = true → extractIteration s = 0) := by
  constructor
  · intro pre ds suf hc h1 h2 h3
    unfold extractIteration
    rw [findBOR_clean hc, findBOR_head (tryBOR_block ds suf h1 h2 h3)]
    rfl
  · intro s h
    unfold extractIteration
    rw [findBOR_none h]
    rfl

/-- C9, witness: a path carrying BO_R12 resolves to 12; a path without the
pattern resolves to 0. -/
theorem C9_witness :
    extractIteration (cs ("data/") ++ (borLit ++ (cs ("12") ++ cs (".csv")))) =
      digitsToNat (cs ("12")) ∧
    extractIteration (cs ("plain.csv")) = 0 :=
  ⟨C9_iteration_identifier.1 (cs ("data/")) (cs ("12")) (cs (".csv"))
     (by decide) (by decide) (by decide) (by decide),
   C9_iteration_identifier.2 (cs ("plain.csv")) (by decide)⟩

/-- C10.  The CSV-driven generator and the DataFrame-driven generator are
observationally equivalent on the patching step: given the same parsed
table, base template and iteration number, they produce identical outcomes
(same filename, byte-identical patched content, and the same failures),
because the source duplicates the construction verbatim in both
functions. -/
theorem C10_generation_paths_equivalent :
    ∀ (df : Table) (tmpl : Option (List Char)) (iter : Nat),
      generateFromCsv (some df) tmpl iter = generateFromDataframe df tmpl iter := by
  intro df tmpl iter
  rfl

end ProtocolGen
